import Mathlib

/-!
Shallow embedding of the KheyaMind blog-platform backend (Node/Express +
Mongoose) in Lean 4, together with proofs about the behaviour of its
query-filter construction, pagination, slug generation, tag normalization,
referential-integrity guard and signup bootstrap logic.

JavaScript strings are modelled as Lean `String`/`List Char`; JS numbers that
hold integral values are modelled as `Int`/`Nat`; `Date` values are modelled
as integers (milliseconds); a possibly-absent document field is an `Option`.
All definitions are executable, so concrete scenarios evaluate by `decide`.
-/

namespace BlogPlatform

/-! ## JS string primitives (models of the String/RegExp operations the
sources use, over the ASCII character set the blog data uses) -/

/-- Model of the JS `\s` character class (the whitespace characters that
occur in this code base's inputs: space, tab, CR, LF). -/
def isWsJs (c : Char) : Bool := c.isWhitespace

/-- Model of the JS `\w` character class: `[A-Za-z0-9_]`. -/
def isWordCharJs (c : Char) : Bool := c.isAlphanum || c == '_'

/-- The character class kept by `replace(/[^\w\-]+/g, '')` in `slugify`:
word characters and hyphens. -/
def keepChar (c : Char) : Bool := isWordCharJs c || c == '-'

/-- Model of `String.prototype.toLowerCase` on one character (ASCII): each
upper-case letter is mapped to its lower-case counterpart, everything else
is unchanged. -/
def lowerChar (c : Char) : Char :=
  match c with
  | 'A' => 'a' | 'B' => 'b' | 'C' => 'c' | 'D' => 'd' | 'E' => 'e'
  | 'F' => 'f' | 'G' => 'g' | 'H' => 'h' | 'I' => 'i' | 'J' => 'j'
  | 'K' => 'k' | 'L' => 'l' | 'M' => 'm' | 'N' => 'n' | 'O' => 'o'
  | 'P' => 'p' | 'Q' => 'q' | 'R' => 'r' | 'S' => 's' | 'T' => 't'
  | 'U' => 'u' | 'V' => 'v' | 'W' => 'w' | 'X' => 'x' | 'Y' => 'y'
  | 'Z' => 'z'
  | c => c

/-- Model of `String.prototype.trim`: drop leading and trailing whitespace. -/
def trimList (l : List Char) : List Char :=
  ((l.dropWhile isWsJs).reverse.dropWhile isWsJs).reverse

/-- Model of `String.prototype.trim` on `String`. -/
def jsTrim (s : String) : String := ⟨trimList s.data⟩

/-- Helper for global regex replacement of maximal runs of characters
satisfying `p` by the fixed replacement `r`.  The flag records whether the
previous character was part of a run (in which case the run was already
replaced and further run characters produce nothing). -/
def collapseRunsAux (p : Char → Bool) (r : List Char) : Bool → List Char → List Char
  | _, [] => []
  | inRun, c :: cs =>
    if p c then
      (if inRun then [] else r) ++ collapseRunsAux p r true cs
    else
      c :: collapseRunsAux p r false cs

/-- `replace(/X+/g, r)`: replace each maximal run of characters satisfying
`p` by `r`. -/
def collapseRuns (p : Char → Bool) (r : List Char) (l : List Char) : List Char :=
  collapseRunsAux p r false l

/-- Model of `replace(/&/g, '-and-')`. -/
def expandAmp : List Char → List Char
  | [] => []
  | c :: cs => (if c == '&' then ['-', 'a', 'n', 'd', '-'] else [c]) ++ expandAmp cs

/-- Model of `utils/slugify.js` on `List Char`, step by step in source order:
lowercase, trim, `replace(/\s+/g,'-')`, `replace(/&/g,'-and-')`,
`replace(/[^\w\-]+/g,'')`, `replace(/\-\-+/g,'-')` (a maximal hyphen run of
length one is unchanged by that regex, so replacing every maximal run by a
single hyphen is the same operation), and finally the trims of leading
hyphen runs `replace(/^-+/,'')` and of trailing hyphen runs. -/
def slugifyList (l : List Char) : List Char :=
  let s1 := l.map lowerChar
  let s2 := trimList s1
  let s3 := collapseRuns isWsJs ['-'] s2
  let s4 := expandAmp s3
  let s5 := s4.filter keepChar
  let s6 := collapseRuns (fun c => c == '-') ['-'] s5
  let s7 := s6.dropWhile (fun c => c == '-')
  (s7.reverse.dropWhile (fun c => c == '-')).reverse

/-- Model of `utils/slugify.js`: convert arbitrary display text into a
URL-safe identifier. -/
def slugify (s : String) : String := ⟨slugifyList s.data⟩

example : slugify "Hello, World!" = "hello-world" := by decide
example : slugify "Tips & Tricks  2024" = "tips-and-tricks-2024" := by decide
example : slugify "  --weird--  input!!  " = "weird-input" := by decide

/-- Model of `String.prototype.split(sep)` for a one-character separator, on
`List Char`.  As in JS, splitting the empty string yields one empty field. -/
def splitOnChar (sep : Char) : List Char → List (List Char)
  | [] => [[]]
  | c :: cs =>
    if c == sep then
      [] :: splitOnChar sep cs
    else
      match splitOnChar sep cs with
      | [] => [[c]]
      | g :: gs => (c :: g) :: gs

/-- Model of `String.prototype.split(",")`. -/
def jsSplitComma (s : String) : List String :=
  (splitOnChar ',' s.data).map (fun l => ⟨l⟩)

example : jsSplitComma "a, b ,, c" = ["a", " b ", "", " c"] := by decide
example : jsSplitComma "" = [""] := by decide

/-- Value of a decimal digit character. -/
def digitVal (c : Char) : Nat := c.toNat - '0'.toNat

/-- Model of the JS global `parseInt` in base 10: skip leading whitespace,
read an optional sign and then a maximal run of decimal digits; `none`
models the JS result `NaN` (no digits). -/
def jsParseInt (s : String) : Option Int :=
  let l := s.data.dropWhile isWsJs
  let (sign, rest) :=
    match l with
    | '-' :: r => ((-1 : Int), r)
    | '+' :: r => ((1 : Int), r)
    | r => ((1 : Int), r)
  let digits := rest.takeWhile Char.isDigit
  if digits.isEmpty then none
  else some (sign * (digits.foldl (fun acc c => 10 * acc + digitVal c) 0 : Nat))

example : jsParseInt "42" = some 42 := by decide
example : jsParseInt "-2" = some (-2) := by decide
example : jsParseInt "0" = some 0 := by decide
example : jsParseInt "abc" = none := by decide

/-- Model of the JS idiom `x || 1` applied to a `parseInt` result: `NaN`
(here `none`) and `0` are falsy and give the default `1`; every other
number is kept. -/
def jsOrOne : Option Int → Int
  | none => 1
  | some n => if n = 0 then 1 else n

/-- Truthiness of an optional query-string parameter (`if (req.query.x)`):
an absent parameter and the empty string are falsy, every other string is
truthy. -/
def queryTruthy : Option String → Bool
  | none => false
  | some s => !(s == "")

/-- Decimal digit list of a natural number, most significant digit first.
The fuel argument makes the recursion structural; `n + 1` units always
suffice because the argument at least halves on every division by ten. -/
def decDigits : Nat → Nat → List Char
  | 0, _ => []
  | fuel + 1, n =>
    if n < 10 then [Nat.digitChar n]
    else decDigits fuel (n / 10) ++ [Nat.digitChar (n % 10)]

/-- Model of JS `Number.prototype.toString()` for a non-negative integral
number: its decimal representation. -/
def jsNumToString (n : Nat) : String := ⟨decDigits (n + 1) n⟩

example : jsNumToString 1760227200 = "1760227200" := by decide

/-- Model of `String.prototype.slice(-6)` on `List Char`: the last six
characters (the whole string when it is shorter). -/
def lastSix (l : List Char) : List Char := l.drop (l.length - 6)

/-- `Math.floor(Date.now() / 1000).toString().slice(-6)` from the blog
pre-save hook: the last six decimal digits of the current epoch-seconds
timestamp. -/
def epochSuffix (nowSec : Nat) : String := ⟨lastSix (decDigits (nowSec + 1) nowSec)⟩

example : epochSuffix 1760227200 = "227200" := by decide
example : epochSuffix 1700000000 = "000000" := by decide

/-- Model of `String.prototype.includes(pat)` (used on error messages). -/
def strContainsSub (s pat : String) : Bool := containsAux pat.data s.data
where
  containsAux (pat : List Char) : List Char → Bool
    | [] => pat.isEmpty
    | c :: cs => pat.isPrefixOf (c :: cs) || containsAux pat cs

example : strContainsSub "Operation buffering timed out after 10000ms" "buffering timed out" = true := by decide
example : strContainsSub "connection refused" "buffering timed out" = false := by decide

/-! ## Data model (`models/blog.model.js` and friends)

Document ids are modelled as `Nat`; `Date` values as `Int` (epoch
milliseconds); the possibly-absent `publishDate` of legacy records as an
`Option Int`.  `status` keeps the schema's string representation
(`"draft"` / `"published"`). -/

/-- A stored `Blog` document (the fields the verified routes read). -/
structure BlogDoc where
  title : String
  slug : String
  content : String
  excerpt : String
  tags : List String
  status : String
  publishDate : Option Int
  isFeatured : Bool
  categoryId : Nat
  authorId : Nat
  author : Nat
  createdAt : Int
deriving DecidableEq, Repr

/-- A stored `Category` document. -/
structure CategoryDoc where
  id : Nat
  name : String
  slug : String
deriving DecidableEq, Repr

/-- A stored `User` document. -/
structure UserDoc where
  name : String
  email : String
  password : String
  role : String
deriving DecidableEq, Repr

/-! ## Visibility filters (GET /api/blogs/published, GET /api/blogs/scheduled,
`src/unnamed/part_005`)

MongoDB comparison operators do not match documents in which the compared
field is absent, so `publishDate: { dollar-lte: now }` is false for a legacy
record without a `publishDate`, and the published filter recovers those
records through its explicit `$exists: false` disjunct. -/

/-- Filter of the published-listing endpoint:
`status = "published"` AND (`publishDate <= now` OR `publishDate` absent). -/
def publishedFilter (now : Int) (b : BlogDoc) : Bool :=
  b.status == "published" &&
    ((match b.publishDate with
      | some d => decide (d ≤ now)
      | none => false) ||
     b.publishDate == none)

/-- Filter of the scheduled-listing endpoint (admin only):
`status = "published"` AND `publishDate > now`. -/
def scheduledFilter (now : Int) (b : BlogDoc) : Bool :=
  b.status == "published" &&
    (match b.publishDate with
     | some d => decide (now < d)
     | none => false)

/-! ## GET /api/blogs/slug/:slug (`src/unnamed/part_005`, latest revision) -/

/-- Response of the slug lookup: HTTP status, `success` flag and the
returned document (`none` when the endpoint answers "Blog not found"). -/
structure SlugResponse where
  status : Nat
  success : Bool
  blog : Option BlogDoc
deriving DecidableEq, Repr

/-- `blog.publishDate > currentDate` in JS: comparing `undefined` with a
date is false, so an absent `publishDate` never counts as future. -/
def publishDateInFuture (b : BlogDoc) (now : Int) : Bool :=
  match b.publishDate with
  | some d => decide (now < d)
  | none => false

/-- Model of the `GET /api/blogs/slug/:slug` handler: fetch the document by
slug; if it exists, is published and its publish date is still in the
future, answer 404 exactly as if it did not exist; if nothing matches,
answer 404; otherwise return the document. -/
def getBlogBySlug (store : List BlogDoc) (slug : String) (now : Int) : SlugResponse :=
  let blog := store.find? (fun b => b.slug == slug)
  if (match blog with
      | some b => b.status == "published" && publishDateInFuture b now
      | none => false) then
    ⟨404, false, none⟩
  else
    match blog with
    | none => ⟨404, false, none⟩
    | some b => ⟨200, true, some b⟩

/-! ## GET /api/blogs listing with pagination (`src/unnamed/part_005`) -/

/-- Paginated listing envelope: `currentPage` and `totalPages` are `none`
when the handler omits them from the JSON response. -/
structure ListResponse where
  success : Bool
  blogs : List BlogDoc
  totalCount : Nat
  currentPage : Option Int
  totalPages : Option Int
deriving DecidableEq, Repr

/-- `Math.ceil(totalCount / limit)` for a positive integral `limit`. -/
def jsCeilDiv (totalCount : Nat) (limit : Int) : Int :=
  ((totalCount : Int) + limit - 1) / limit

/-- `.sort({ createdAt: -1 })`: newest first. -/
def sortByCreatedAtDesc (l : List BlogDoc) : List BlogDoc :=
  l.mergeSort (fun a b => decide (b.createdAt ≤ a.createdAt))

/-- The store window `query.skip(skip).limit(limit)`.  The verified
theorems only use non-negative `skip` and positive `limit`; the driver
rejects a negative skip, which this total model does not represent. -/
def applyWindow (l : List BlogDoc) (skip limit : Int) : List BlogDoc :=
  (l.drop skip.toNat).take limit.toNat

/-- Model of the `GET /api/blogs` handler (latest revision) for a built
filter predicate: execute the filtered, sorted query with the optional
pagination window, count the matching documents with a separate count
query over the same filter, and attach `currentPage`/`totalPages` to the
envelope only when the `limit` parameter was supplied.  `pageQ`/`limitQ`
are the raw query-string parameters.  When `limit` is absent the handler
still caps the result at 100 documents.  A `limit` parameter that parses
to `NaN` would make the window undefined; the model returns the capped
list in that case and no theorem relies on it. -/
def getBlogs (store : List BlogDoc) (filter : BlogDoc → Bool)
    (pageQ limitQ : Option String) : ListResponse :=
  let matching := sortByCreatedAtDesc (store.filter filter)
  let totalCount := (store.filter filter).length
  if queryTruthy limitQ then
    let page := jsOrOne (pageQ.bind jsParseInt)
    match limitQ.bind jsParseInt with
    | some limit =>
      let skip := (page - 1) * limit
      ⟨true, applyWindow matching skip limit, totalCount, some page,
        some (jsCeilDiv totalCount limit)⟩
    | none =>
      -- a supplied limit that parses to NaN makes skip/limit/totalPages NaN
      -- in JS; no theorem below touches this case
      ⟨true, matching, totalCount, some page, none⟩
  else
    ⟨true, matching.take 100, totalCount, none, none⟩

/-! ## Error branch of GET /api/blogs (`src/unnamed/part_005`, lines
1078-1099) and the server-level error middleware (`server.js`) -/

/-- An error JSON response: HTTP status and `message` field. -/
structure ErrResponse where
  status : Nat
  message : String
deriving DecidableEq, Repr

/-- Model of the `catch` block of the `GET /api/blogs` handler: a Mongoose
buffering-timeout error gets a dedicated message suggesting pagination, but
the handler responds with HTTP 500 in both branches. -/
def blogsFetchCatch (errName errMessage : String) : ErrResponse :=
  if errName == "MongooseError" && strContainsSub errMessage "buffering timed out" then
    ⟨500, "Query timed out. Try using pagination or narrowing your search criteria."⟩
  else
    ⟨500, "Failed to fetch blogs"⟩

/-- Model of the global error middleware in `server.js`: the same
buffering-timeout condition is mapped to HTTP 504 there.  Errors caught
inside a route handler never reach this middleware. -/
def serverErrorMiddleware (errName errMessage : String) : ErrResponse :=
  if errName == "MongooseError" && strContainsSub errMessage "buffering timed out" then
    ⟨504, "Database query timed out. Try using pagination or narrowing your search criteria."⟩
  else
    ⟨500, "Internal server error"⟩

/-! ## Slug uniqueness resolution (`models/blog.model.js` pre-save hook,
latest revision) -/

/-- Model of the `blogSchema.pre('save')` slug logic for a new document:
when no slug was supplied, derive one from the title; if some stored
document already uses that slug, append a hyphen and the last six digits of
the current epoch-seconds timestamp (no retry loop). -/
def preSaveSlug (store : List BlogDoc) (nowSec : Nat) (title : String)
    (slugField : Option String) : String :=
  match slugField with
  | some s => s
  | none =>
    let baseSlug := slugify title
    if store.any (fun b => b.slug == baseSlug) then
      baseSlug ++ "-" ++ epochSuffix nowSec
    else
      baseSlug

/-! ## Tag normalization (POST /api/blogs and PUT /api/blogs/:id,
`src/unnamed/part_005`) -/

/-- The `tags` value found in a request body: an array, a single string,
absent (`undefined`, falsy), or some other JS value. -/
inductive TagsInput where
  | arr (tags : List String)
  | str (s : String)
  | missing
  | other
deriving DecidableEq, Repr

/-- Outcome of tags validation in the create handler. -/
inductive TagsOutcome where
  | ok (tags : List String)
  | reject (status : Nat) (message : String)
deriving DecidableEq, Repr

/-- Array-input filter `tags.filter(tag => tag && tag.trim() !== "")`:
empty and whitespace-only elements are dropped (elements are not trimmed). -/
def filterArrayTags (ts : List String) : List String :=
  ts.filter (fun t => !(t == "") && !(jsTrim t == ""))

/-- String-input normalization: split on commas, trim each element, drop
empty elements. -/
def normalizeTagString (s : String) : List String :=
  ((jsSplitComma s).map jsTrim).filter (fun t => !(t == ""))

/-- Model of the tags validation of `POST /api/blogs`: first the guard
`!tags || (Array.isArray(tags) && tags.length === 0) ||
(typeof tags === "string" && tags.trim() === "")`, then the per-shape
formatting with its own emptiness check. -/
def formatTagsCreate : TagsInput → TagsOutcome
  | .missing => .reject 400 "At least one tag is required"
  | .arr ts =>
    if ts.length == 0 then .reject 400 "At least one tag is required"
    else
      let f := filterArrayTags ts
      if f.isEmpty then .reject 400 "At least one non-empty tag is required"
      else .ok f
  | .str s =>
    if jsTrim s == "" then .reject 400 "At least one tag is required"
    else
      let f := normalizeTagString s
      if f.isEmpty then .reject 400 "At least one non-empty tag is required"
      else .ok f
  | .other => .reject 400 "Tags must be provided as a string or array"

/-- Outcome of tags validation in the update handler: an absent `tags`
field keeps the stored tags. -/
inductive UpdateTagsOutcome where
  | keep
  | ok (tags : List String)
  | reject (status : Nat) (message : String)
deriving DecidableEq, Repr

/-- Model of the tags validation of `PUT /api/blogs/:id`: only performed
when `tags !== undefined`; same formatting and emptiness checks as create,
without the create handler's leading guard. -/
def formatTagsUpdate : TagsInput → UpdateTagsOutcome
  | .missing => .keep
  | .arr ts =>
    let f := filterArrayTags ts
    if f.isEmpty then .reject 400 "At least one non-empty tag is required"
    else .ok f
  | .str s =>
    let f := normalizeTagString s
    if f.isEmpty then .reject 400 "At least one non-empty tag is required"
    else .ok f
  | .other => .reject 400 "Tags must be provided as a string or array"

example : formatTagsCreate (.str "a, b ,, c") = .ok ["a", "b", "c"] := by decide
example : formatTagsCreate (.str "") = .reject 400 "At least one tag is required" := by decide
example : formatTagsCreate (.arr []) = .reject 400 "At least one tag is required" := by decide
example : formatTagsUpdate (.str "a, b ,, c") = .ok ["a", "b", "c"] := by decide

/-! ## Category deletion guard (`routes/category.routes.js`) -/

/-- Response of DELETE /api/categories/:id together with the category
collection after the request. -/
structure DeleteCategoryResult where
  status : Nat
  success : Bool
  blogsCount : Option Nat
  categories : List CategoryDoc
deriving DecidableEq, Repr

/-- Model of the `DELETE /api/categories/:id` handler: count the blogs
referencing the category; when the count is positive refuse with 400 and
report the count; otherwise delete the category if it exists. -/
def deleteCategory (blogs : List BlogDoc) (cats : List CategoryDoc)
    (cid : Nat) : DeleteCategoryResult :=
  let blogsWithCategory := (blogs.filter (fun b => b.categoryId == cid)).length
  if blogsWithCategory > 0 then
    ⟨400, false, some blogsWithCategory, cats⟩
  else
    match cats.find? (fun c => c.id == cid) with
    | none => ⟨404, false, none, cats⟩
    | some _ => ⟨200, true, none, cats.eraseP (fun c => c.id == cid)⟩

/-! ## Signup bootstrap (`routes/auth.routes.js`) -/

/-- Modelled from the spec: the `User` model file is not among the sources;
per §3 a user's `role` is in `{user, admin}` and, as the signup handler's
comment states, "Role is set to 'user' by default in the model". -/
def defaultUserRole : String := "user"

/-- Response of POST /api/auth/signup together with the user collection
after the request. -/
structure SignupResult where
  status : Nat
  user : Option UserDoc
  users : List UserDoc
deriving DecidableEq, Repr

/-- Model of the `POST /api/auth/signup` handler: reject a duplicate email;
otherwise create the user with the model's default role, then count all
users and promote the new user to admin when the count is exactly one. -/
def signup (users : List UserDoc) (name email password : String) : SignupResult :=
  match users.find? (fun u => u.email == email) with
  | some _ => ⟨400, none, users⟩
  | none =>
    let user : UserDoc := ⟨name, email, password, defaultUserRole⟩
    let afterCreate := users ++ [user]
    let userCount := afterCreate.length
    if userCount == 1 then
      let promoted : UserDoc := { user with role := "admin" }
      ⟨201, some promoted, users ++ [promoted]⟩
    else
      ⟨201, some user, afterCreate⟩

/-! ## Default status on blog create (POST /api/blogs constructor and
`models/blog.model.js` schema default) -/

/-- `status: status || "published"` in the create handler's `new Blog`
call: an absent or empty status parameter falls back to "published". -/
def createBlogStatus (statusParam : Option String) : String :=
  match statusParam with
  | none => "published"
  | some s => if s == "" then "published" else s

/-- `default: 'published'` of `blogSchema.status`: the value the schema
fills in when a document is constructed without a status field. -/
def blogSchemaStatusDefault : String := "published"

/-! ## Sample documents used to instantiate theorems with hypotheses -/

/-- A published blog whose publish date has passed. -/
def pastBlog : BlogDoc :=
  { title := "Past", slug := "past", content := "c", excerpt := "e",
    tags := ["ai"], status := "published", publishDate := some 50,
    isFeatured := false, categoryId := 1, authorId := 1, author := 1,
    createdAt := 40 }

/-- A published blog scheduled strictly in the future (relative to `now = 100`). -/
def futureBlog : BlogDoc :=
  { title := "Future", slug := "future", content := "c", excerpt := "e",
    tags := ["ai"], status := "published", publishDate := some 500,
    isFeatured := false, categoryId := 2, authorId := 1, author := 1,
    createdAt := 60 }

/-- A legacy published blog without a publish date. -/
def legacyBlog : BlogDoc :=
  { title := "Legacy", slug := "legacy", content := "c", excerpt := "e",
    tags := ["ai"], status := "published", publishDate := none,
    isFeatured := false, categoryId := 3, authorId := 1, author := 1,
    createdAt := 10 }

/-- A sample category. -/
def sampleCategory : CategoryDoc := { id := 1, name := "AI", slug := "ai" }

/-- A second sample category, referenced by no blog in the samples. -/
def unusedCategory : CategoryDoc := { id := 9, name := "Unused", slug := "unused" }

/-- A sample user. -/
def sampleUser : UserDoc :=
  { name := "A", email := "a@x.io", password := "hash", role := "user" }

/-- A blog already holding the slug derived from "Hello, World!". -/
def helloBlog : BlogDoc :=
  { title := "Hello, World!", slug := "hello-world", content := "c", excerpt := "e",
    tags := ["ai"], status := "published", publishDate := some 1,
    isFeatured := false, categoryId := 1, authorId := 1, author := 1,
    createdAt := 1 }

/-! ## Predicates used by the slugify development -/

/-- No two adjacent characters of the list are both hyphens (the shape of
`slugify` output after hyphen runs are collapsed). -/
def NoTwoHyphens (l : List Char) : Prop :=
  List.Chain' (fun a b => ¬(a = '-' ∧ b = '-')) l

end BlogPlatform

namespace BlogPlatform

/-! # Theorems -/

/-! ## Character-level facts -/

/-- ASCII lowercasing is idempotent. -/
theorem lowerChar_idem (c : Char) : lowerChar (lowerChar c) = lowerChar c := by
  by_cases h : c ∈ ['A', 'B', 'C', 'D', 'E', 'F', 'G', 'H', 'I', 'J', 'K', 'L',
      'M', 'N', 'O', 'P', 'Q', 'R', 'S', 'T', 'U', 'V', 'W', 'X', 'Y', 'Z']
  · fin_cases h <;> decide
  · have hfix : lowerChar c = c := by
      unfold lowerChar
      split <;> simp_all
    rw [hfix, hfix]

/-- A whitespace character is not kept by the slug character filter. -/
theorem ws_not_keep (c : Char) (h : isWsJs c = true) : keepChar c = false := by
  have h' : ((c = ' ' ∨ c = '\t') ∨ c = '\x0d') ∨ c = '\n' := by
    simpa [isWsJs, Char.isWhitespace] using h
  rcases h' with ((h' | h') | h') | h' <;> subst h' <;> decide

/-- A kept character is not whitespace. -/
theorem keep_not_ws (c : Char) (h : keepChar c = true) : isWsJs c = false := by
  cases hw : isWsJs c with
  | false => rfl
  | true => rw [ws_not_keep c hw] at h; cases h

/-- A kept character is not an ampersand. -/
theorem keep_not_amp (c : Char) (h : keepChar c = true) : (c == '&') = false := by
  cases he : c == '&' with
  | false => rfl
  | true =>
    have : c = '&' := by simpa using he
    subst this
    cases h

/-! ## Generic list lemmas about the regex helpers -/

/-- Elements of a run-collapsed list come from the input or the replacement. -/
theorem mem_collapseRunsAux {p : Char → Bool} {r : List Char} {c : Char} :
    ∀ {b : Bool} {l : List Char}, c ∈ collapseRunsAux p r b l → c ∈ l ∨ c ∈ r := by
  intro b l
  induction l generalizing b with
  | nil => intro h; cases h
  | cons a tl ih =>
    intro h
    rw [show collapseRunsAux p r b (a :: tl) =
        (if p a then (if b then [] else r) ++ collapseRunsAux p r true tl
         else a :: collapseRunsAux p r false tl) from rfl] at h
    by_cases hp : p a
    · rw [if_pos hp] at h
      rcases List.mem_append.mp h with h | h
      · cases b with
        | true => simp at h
        | false =>
          simp only [Bool.false_eq_true, if_false] at h
          exact Or.inr h
      · rcases ih h with h' | h'
        · exact Or.inl (List.mem_cons_of_mem _ h')
        · exact Or.inr h'
    · rw [if_neg hp] at h
      rcases List.mem_cons.mp h with h | h
      · exact Or.inl (h ▸ List.mem_cons_self _ _)
      · rcases ih h with h' | h'
        · exact Or.inl (List.mem_cons_of_mem _ h')
        · exact Or.inr h'

/-- Elements after ampersand expansion come from the input or from `-and-`. -/
theorem mem_expandAmp {c : Char} :
    ∀ {l : List Char}, c ∈ expandAmp l → c ∈ l ∨ c ∈ ['-', 'a', 'n', 'd'] := by
  intro l
  induction l with
  | nil => intro h; cases h
  | cons a tl ih =>
    intro h
    rw [show expandAmp (a :: tl) =
        (if a == '&' then ['-', 'a', 'n', 'd', '-'] else [a]) ++ expandAmp tl from rfl] at h
    by_cases ha : a == '&'
    · rw [if_pos ha] at h
      rcases List.mem_append.mp h with h | h
      · right; simp only [List.mem_cons, List.not_mem_nil, or_false] at h
        rcases h with h | h | h | h | h <;> simp [h]
      · rcases ih h with h' | h'
        · exact Or.inl (List.mem_cons_of_mem _ h')
        · exact Or.inr h'
    · rw [if_neg ha] at h
      rcases List.mem_append.mp h with h | h
      · rcases List.mem_singleton.mp h with h
        exact Or.inl (h ▸ List.mem_cons_self _ _)
      · rcases ih h with h' | h'
        · exact Or.inl (List.mem_cons_of_mem _ h')
        · exact Or.inr h'

/-- Trimming only removes elements. -/
theorem mem_trimList {c : Char} {l : List Char} (h : c ∈ trimList l) : c ∈ l := by
  unfold trimList at h
  rw [List.mem_reverse] at h
  have h1 := (List.dropWhile_sublist isWsJs).mem h
  rw [List.mem_reverse] at h1
  exact (List.dropWhile_sublist isWsJs).mem h1

/-- A member of a list that fails the predicate survives `dropWhile`. -/
theorem mem_dropWhile_of_not {p : Char → Bool} {c : Char} (hc : p c = false) :
    ∀ {l : List Char}, c ∈ l → c ∈ l.dropWhile p := by
  intro l
  induction l with
  | nil => intro h; cases h
  | cons a tl ih =>
    intro h
    by_cases ha : p a
    · rw [List.dropWhile_cons_of_pos ha]
      rcases List.mem_cons.mp h with h' | h'
      · subst h'; rw [hc] at ha; cases ha
      · exact ih h'
    · rw [List.dropWhile_cons_of_neg ha]
      exact h

/-- The head of a `dropWhile` result fails the predicate. -/
theorem head?_dropWhile {p : Char → Bool} :
    ∀ {l : List Char}, ∀ c ∈ (l.dropWhile p).head?, p c = false := by
  intro l
  induction l with
  | nil => intro c hc; cases hc
  | cons a tl ih =>
    intro c hc
    by_cases ha : p a
    · rw [List.dropWhile_cons_of_pos ha] at hc
      exact ih c hc
    · rw [List.dropWhile_cons_of_neg ha] at hc
      simp only [List.head?_cons, Option.mem_def, Option.some.injEq] at hc
      subst hc
      exact Bool.not_eq_true _ ▸ (by simpa using ha)

/-- `dropWhile` is the identity when every element fails the predicate. -/
theorem dropWhile_eq_self_of_all {p : Char → Bool} {l : List Char}
    (h : ∀ c ∈ l, p c = false) : l.dropWhile p = l := by
  cases l with
  | nil => rfl
  | cons a tl => exact List.dropWhile_cons_of_neg (by simp [h a (List.mem_cons_self a tl)])

/-- Trimming is the identity on whitespace-free lists. -/
theorem trimList_eq_self_of_all {l : List Char}
    (h : ∀ c ∈ l, isWsJs c = false) : trimList l = l := by
  unfold trimList
  rw [dropWhile_eq_self_of_all h]
  rw [dropWhile_eq_self_of_all (fun c hc => h c (List.mem_reverse.mp hc))]
  exact List.reverse_reverse l

/-- Run collapsing is the identity when no element satisfies the predicate. -/
theorem collapseRunsAux_eq_self_of_all {p : Char → Bool} {r : List Char}
    {l : List Char} (h : ∀ c ∈ l, p c = false) :
    ∀ b, collapseRunsAux p r b l = l := by
  induction l with
  | nil => intro b; rfl
  | cons a tl ih =>
    intro b
    have ha : p a = false := h a (List.mem_cons_self a tl)
    simp only [collapseRunsAux, ha, Bool.false_eq_true, if_false]
    rw [ih (fun c hc => h c (List.mem_cons_of_mem a hc)) false]

/-- Ampersand expansion is the identity on ampersand-free lists. -/
theorem expandAmp_eq_self_of_all {l : List Char}
    (h : ∀ c ∈ l, (c == '&') = false) : expandAmp l = l := by
  induction l with
  | nil => rfl
  | cons a tl ih =>
    have ha : (a == '&') = false := h a (List.mem_cons_self a tl)
    simp only [expandAmp, ha, Bool.false_eq_true, if_false, List.singleton_append,
      List.cons.injEq, true_and]
    exact ih (fun c hc => h c (List.mem_cons_of_mem a hc))

/-- `dropWhile` is the identity when the head (if any) fails the predicate. -/
theorem dropWhile_eq_self_of_head {p : Char → Bool} {l : List Char}
    (h : ∀ c ∈ l.head?, p c = false) : l.dropWhile p = l := by
  cases l with
  | nil => rfl
  | cons a tl =>
    exact List.dropWhile_cons_of_neg (by simp [h a (by simp)])

/-! ## Hyphen-run lemmas -/

/-- Collapsing hyphen runs leaves no two adjacent hyphens, and in the
in-run state the output cannot start with a hyphen. -/
theorem chain_collapseHyphens (l : List Char) :
    NoTwoHyphens (collapseRunsAux (fun c => c == '-') ['-'] false l) ∧
    NoTwoHyphens (collapseRunsAux (fun c => c == '-') ['-'] true l) ∧
    (∀ c ∈ (collapseRunsAux (fun c => c == '-') ['-'] true l).head?, c ≠ '-') := by
  induction l with
  | nil =>
    refine ⟨List.chain'_nil, List.chain'_nil, ?_⟩
    intro c hc; cases hc
  | cons a tl ih =>
    obtain ⟨ihF, ihT, ihH⟩ := ih
    have hF : collapseRunsAux (fun c => c == '-') ['-'] false (a :: tl) =
        (if a == '-' then ['-'] ++ collapseRunsAux (fun c => c == '-') ['-'] true tl
         else a :: collapseRunsAux (fun c => c == '-') ['-'] false tl) := rfl
    have hT : collapseRunsAux (fun c => c == '-') ['-'] true (a :: tl) =
        (if a == '-' then collapseRunsAux (fun c => c == '-') ['-'] true tl
         else a :: collapseRunsAux (fun c => c == '-') ['-'] false tl) := rfl
    by_cases ha : (a == '-') = true
    · refine ⟨?_, ?_, ?_⟩
      · rw [hF, if_pos ha, List.singleton_append]
        exact List.chain'_cons'.mpr ⟨fun y hy hcon => ihH y hy hcon.2, ihT⟩
      · rw [hT, if_pos ha]; exact ihT
      · rw [hT, if_pos ha]; exact ihH
    · have ha' : a ≠ '-' := by simpa using ha
      refine ⟨?_, ?_, ?_⟩
      · rw [hF, if_neg ha]
        exact List.chain'_cons'.mpr ⟨fun y hy hcon => ha' hcon.1, ihF⟩
      · rw [hT, if_neg ha]
        exact List.chain'_cons'.mpr ⟨fun y hy hcon => ha' hcon.1, ihF⟩
      · rw [hT, if_neg ha]
        intro c hc
        simp only [List.head?_cons, Option.mem_def, Option.some.injEq] at hc
        exact hc ▸ ha'

/-- Collapsing hyphen runs is the identity on a list without adjacent
hyphens (and, in the in-run state, whose head is not a hyphen). -/
theorem collapseHyphens_eq_self {l : List Char} (h : NoTwoHyphens l) :
    collapseRunsAux (fun c => c == '-') ['-'] false l = l ∧
    ((∀ c ∈ l.head?, c ≠ '-') →
      collapseRunsAux (fun c => c == '-') ['-'] true l = l) := by
  induction l with
  | nil => exact ⟨rfl, fun _ => rfl⟩
  | cons a tl ih =>
    obtain ⟨hr, htl⟩ := List.chain'_cons'.mp h
    obtain ⟨ihF, ihT⟩ := ih htl
    have hF : collapseRunsAux (fun c => c == '-') ['-'] false (a :: tl) =
        (if a == '-' then ['-'] ++ collapseRunsAux (fun c => c == '-') ['-'] true tl
         else a :: collapseRunsAux (fun c => c == '-') ['-'] false tl) := rfl
    have hT : collapseRunsAux (fun c => c == '-') ['-'] true (a :: tl) =
        (if a == '-' then collapseRunsAux (fun c => c == '-') ['-'] true tl
         else a :: collapseRunsAux (fun c => c == '-') ['-'] false tl) := rfl
    by_cases ha : (a == '-') = true
    · have ha' : a = '-' := by simpa using ha
      constructor
      · rw [hF, if_pos ha, List.singleton_append]
        have hhead : ∀ c ∈ tl.head?, c ≠ '-' :=
          fun c hc hcc => hr c hc ⟨ha', hcc⟩
        rw [ihT hhead, ha']
      · intro hh
        exact absurd ha' (hh a (by simp))
    · constructor
      · rw [hF, if_neg ha, ihF]
      · intro _
        rw [hT, if_neg ha, ihF]

/-! ## Shape of slugify output -/

/-- Every character of a slug is a kept, lowercase-stable character; a slug
has no two adjacent hyphens and neither starts nor ends with a hyphen. -/
theorem slugifyList_shape (l : List Char) :
    (∀ c ∈ slugifyList l, keepChar c = true ∧ lowerChar c = c) ∧
    NoTwoHyphens (slugifyList l) ∧
    (∀ c ∈ (slugifyList l).head?, c ≠ '-') ∧
    (∀ c ∈ (slugifyList l).reverse.head?, c ≠ '-') := by
  have hO : slugifyList l =
      ((((((l.map lowerChar |> trimList) |> collapseRuns isWsJs ['-']) |> expandAmp)
        |> List.filter keepChar) |> collapseRuns (fun c => c == '-') ['-']
        |> List.dropWhile (fun c => c == '-')).reverse.dropWhile
          (fun c => c == '-')).reverse := rfl
  set s5 := ((((l.map lowerChar |> trimList) |> collapseRuns isWsJs ['-']) |> expandAmp)
    |> List.filter keepChar) with hs5
  set s6 := collapseRuns (fun c => c == '-') ['-'] s5 with hs6
  set s7 := s6.dropWhile (fun c => c == '-') with hs7
  have hO' : slugifyList l = (s7.reverse.dropWhile (fun c => c == '-')).reverse := hO
  refine ⟨?_, ?_, ?_, ?_⟩
  · intro c hc
    rw [hO'] at hc
    have hc1 : c ∈ s7.reverse.dropWhile (fun c => c == '-') := List.mem_reverse.mp hc
    have hc2 : c ∈ s7 := List.mem_reverse.mp ((List.dropWhile_sublist _).mem hc1)
    have hc3 : c ∈ s6 := (List.dropWhile_sublist _).mem hc2
    rcases mem_collapseRunsAux hc3 with hc4 | hc4
    · rw [hs5] at hc4
      obtain ⟨hc5, hkeep⟩ := List.mem_filter.mp hc4
      refine ⟨hkeep, ?_⟩
      rcases mem_expandAmp hc5 with hc6 | hc6
      · rcases mem_collapseRunsAux hc6 with hc7 | hc7
        · have hc8 := mem_trimList hc7
          obtain ⟨x, _, hx⟩ := List.mem_map.mp hc8
          rw [← hx]
          exact lowerChar_idem x
        · simp only [List.mem_singleton] at hc7; subst hc7; decide
      · fin_cases hc6 <;> decide
    · simp only [List.mem_singleton] at hc4
      subst hc4
      exact ⟨by decide, by decide⟩
  · rw [hO']
    have h6 : NoTwoHyphens s6 := (chain_collapseHyphens s5).1
    have h7 : NoTwoHyphens s7 := h6.suffix (List.dropWhile_suffix _)
    have h7r : NoTwoHyphens s7.reverse := by
      rw [NoTwoHyphens, List.chain'_reverse]
      exact h7.imp (fun a b hab hcon => hab ⟨hcon.2, hcon.1⟩)
    have hd : NoTwoHyphens (s7.reverse.dropWhile (fun c => c == '-')) :=
      h7r.suffix (List.dropWhile_suffix _)
    rw [NoTwoHyphens, List.chain'_reverse]
    exact hd.imp (fun a b hab hcon => hab ⟨hcon.2, hcon.1⟩)
  · -- the slug is a prefix of s7, whose head is not a hyphen
    intro c hc hcc
    rw [hO'] at hc
    obtain ⟨t, ht⟩ := List.dropWhile_suffix (l := s7.reverse) (fun c => c == '-')
    have hpre : (s7.reverse.dropWhile (fun c => c == '-')).reverse ++ t.reverse = s7 := by
      rw [← List.reverse_append, ht, List.reverse_reverse]
    cases hx : (s7.reverse.dropWhile (fun c => c == '-')).reverse with
    | nil => rw [hx] at hc; cases hc
    | cons a rest =>
      rw [hx] at hc
      have hac : a = c := by simpa using hc
      rw [hx] at hpre
      have hhead : ∀ x ∈ s7.head?, (fun c => c == '-') x = false := head?_dropWhile
      have hch : (a == '-') = false := by
        apply hhead
        rw [← hpre]
        simp
      rw [hac, hcc] at hch
      simp at hch
  · intro c hc hcc
    rw [hO', List.reverse_reverse] at hc
    have : (c == '-') = false := head?_dropWhile c hc
    rw [hcc] at this
    simp at this

/-- Applying the slug pipeline to its own output changes nothing. -/
theorem slugifyList_idem (l : List Char) :
    slugifyList (slugifyList l) = slugifyList l := by
  obtain ⟨hmem, hna, hh, hrh⟩ := slugifyList_shape l
  set O := slugifyList l with hOdef
  have hallkeep : ∀ c ∈ O, keepChar c = true := fun c hc => (hmem c hc).1
  have h1 : O.map lowerChar = O := by
    rw [List.map_congr_left (fun c hc => (hmem c hc).2)]
    exact List.map_id O
  have h2 : trimList O = O :=
    trimList_eq_self_of_all (fun c hc => keep_not_ws c (hallkeep c hc))
  have h3 : collapseRuns isWsJs ['-'] O = O :=
    collapseRunsAux_eq_self_of_all (fun c hc => keep_not_ws c (hallkeep c hc)) false
  have h4 : expandAmp O = O :=
    expandAmp_eq_self_of_all (fun c hc => keep_not_amp c (hallkeep c hc))
  have h5 : O.filter keepChar = O := List.filter_eq_self.mpr hallkeep
  have h6 : collapseRuns (fun c => c == '-') ['-'] O = O :=
    (collapseHyphens_eq_self hna).1
  have h7 : O.dropWhile (fun c => c == '-') = O := by
    apply dropWhile_eq_self_of_head
    intro c hc
    have := hh c hc
    simpa using this
  have h8 : O.reverse.dropWhile (fun c => c == '-') = O.reverse := by
    apply dropWhile_eq_self_of_head
    intro c hc
    have := hrh c hc
    simpa using this
  show slugifyList O = O
  simp only [slugifyList]
  rw [h1, h2, h3, h4, h5, h6, h7, h8, List.reverse_reverse]

/-- C7: for every text `T`, `slugify` is idempotent —
`slugify (slugify T) = slugify T`; being a pure Lean function of its input,
the embedded `slugify` is deterministic and effect-free by construction. -/
theorem slugify_idempotent (t : String) : slugify (slugify t) = slugify t :=
  congrArg String.mk (slugifyList_idem t.data)

/-! ## C1: published/scheduled listing filters partition published blogs -/

/-- C1: for a blog with `status = "published"`, the published-listing and
scheduled-listing filters partition by publish date: a blog whose
`publishDate` is at most `now` — vacuously including an absent
`publishDate` — passes the published filter and fails the scheduled one; a
blog with a strictly future `publishDate` passes the scheduled filter and
fails the published one; and a published blog with absent `publishDate` is
always in the published-visibility set. -/
theorem published_scheduled_partition (now : Int) (b : BlogDoc)
    (hpub : b.status = "published") :
    ((∀ d, b.publishDate = some d → d ≤ now) →
      publishedFilter now b = true ∧ scheduledFilter now b = false)
    ∧ (∀ d, b.publishDate = some d → now < d →
      scheduledFilter now b = true ∧ publishedFilter now b = false)
    ∧ (b.publishDate = none →
      publishedFilter now b = true ∧ scheduledFilter now b = false) := by
  refine ⟨?_, ?_, ?_⟩
  · intro h
    cases hpd : b.publishDate with
    | none => constructor <;> simp [publishedFilter, scheduledFilter, hpub, hpd]
    | some d =>
      have hd : d ≤ now := h d hpd
      constructor <;> simp [publishedFilter, scheduledFilter, hpub, hpd] <;> omega
  · intro d hpd hlt
    constructor <;> simp [publishedFilter, scheduledFilter, hpub, hpd] <;> omega
  · intro hpd
    constructor <;> simp [publishedFilter, scheduledFilter, hpub, hpd]

/-- Witness for C1 at `now = 100` on concrete past, future and legacy blogs. -/
theorem published_scheduled_partition_witness :
    (publishedFilter 100 pastBlog = true ∧ scheduledFilter 100 pastBlog = false)
    ∧ (scheduledFilter 100 futureBlog = true ∧ publishedFilter 100 futureBlog = false)
    ∧ (publishedFilter 100 legacyBlog = true ∧ scheduledFilter 100 legacyBlog = false) :=
  ⟨(published_scheduled_partition 100 pastBlog rfl).1
      (fun d hd => by cases hd; decide),
   (published_scheduled_partition 100 futureBlog rfl).2.1 500 rfl (by decide),
   (published_scheduled_partition 100 legacyBlog rfl).2.2 rfl⟩

/-! ## C2: slug lookup hides scheduled posts -/

/-- C2: the slug lookup answers 404 with `success: false` when the stored
document matching the slug is published with a strictly future publish
date, even though it exists; a visible document (draft, absent publish
date, or publish date at most now) is returned with `success: true`; and a
slug with no matching document answers 404. -/
theorem slug_lookup_visibility (store : List BlogDoc) (s : String) (now : Int) :
    (∀ b d, store.find? (fun x => x.slug == s) = some b →
      b.status = "published" → b.publishDate = some d → now < d →
      getBlogBySlug store s now = ⟨404, false, none⟩)
    ∧ (∀ b, store.find? (fun x => x.slug == s) = some b →
      (b.status = "draft" ∨ b.publishDate = none ∨
        (∃ d, b.publishDate = some d ∧ d ≤ now)) →
      getBlogBySlug store s now = ⟨200, true, some b⟩)
    ∧ (store.find? (fun x => x.slug == s) = none →
      getBlogBySlug store s now = ⟨404, false, none⟩) := by
  refine ⟨?_, ?_, ?_⟩
  · intro b d hfind hpub hpd hlt
    have hfut : publishDateInFuture b now = true := by
      simp [publishDateInFuture, hpd]
      exact hlt
    have hst : (b.status == "published") = true := by simp [hpub]
    simp [getBlogBySlug, hfind, hst, hfut]
  · intro b hfind hvis
    have hcond : (b.status == "published" && publishDateInFuture b now) = false := by
      rcases hvis with h | h | ⟨d, hpd, hle⟩
      · have hst : (b.status == "published") = false := by rw [h]; decide
        simp [hst]
      · simp [publishDateInFuture, h]
      · simp [publishDateInFuture, hpd]
        omega
    simp [getBlogBySlug, hfind, hcond]
  · intro hfind
    simp [getBlogBySlug, hfind]

/-- Witness for C2 on a two-document store at `now = 100`. -/
theorem slug_lookup_visibility_witness :
    getBlogBySlug [futureBlog, pastBlog] "future" 100 = ⟨404, false, none⟩
    ∧ getBlogBySlug [futureBlog, pastBlog] "past" 100 = ⟨200, true, some pastBlog⟩
    ∧ getBlogBySlug [futureBlog, pastBlog] "nope" 100 = ⟨404, false, none⟩ :=
  ⟨(slug_lookup_visibility [futureBlog, pastBlog] "future" 100).1 futureBlog 500
      (by decide) rfl rfl (by decide),
   (slug_lookup_visibility [futureBlog, pastBlog] "past" 100).2.1 pastBlog
      (by decide) (Or.inr (Or.inr ⟨50, rfl, by decide⟩)),
   (slug_lookup_visibility [futureBlog, pastBlog] "nope" 100).2.2 (by decide)⟩

/-! ## C4: store-timeout error branch of the listing handler -/

/-- C4 counterexample: on a Mongoose buffering-timeout error the listing
handler's own catch block responds with HTTP 500 — not 504 — while still
using the dedicated message that suggests pagination. -/
theorem store_timeout_counterexample :
    (blogsFetchCatch "MongooseError"
      "Operation blogs.find buffering timed out after 10000ms").status = 500
    ∧ (blogsFetchCatch "MongooseError"
      "Operation blogs.find buffering timed out after 10000ms").status ≠ 504
    ∧ (blogsFetchCatch "MongooseError"
      "Operation blogs.find buffering timed out after 10000ms").message =
      "Query timed out. Try using pagination or narrowing your search criteria." := by
  decide

/-- C4 (amended): on a store timeout the listing handler responds 500 with
the dedicated pagination-suggesting message — distinguishable from the
generic branch only by its message — while the 504 mapping lives in the
server-level error middleware, which a handler-caught error never reaches. -/
theorem store_timeout_branch (errName errMessage : String)
    (h1 : errName = "MongooseError")
    (h2 : strContainsSub errMessage "buffering timed out" = true) :
    blogsFetchCatch errName errMessage =
      ⟨500, "Query timed out. Try using pagination or narrowing your search criteria."⟩
    ∧ (blogsFetchCatch errName errMessage).message ≠ "Failed to fetch blogs"
    ∧ serverErrorMiddleware errName errMessage =
      ⟨504, "Database query timed out. Try using pagination or narrowing your search criteria."⟩ := by
  subst h1
  refine ⟨?_, ?_, ?_⟩ <;>
    simp [blogsFetchCatch, serverErrorMiddleware, h2]

/-- Witness for the amended C4 at a concrete buffering-timeout error. -/
theorem store_timeout_branch_witness :
    blogsFetchCatch "MongooseError" "x buffering timed out y" =
      ⟨500, "Query timed out. Try using pagination or narrowing your search criteria."⟩
    ∧ (blogsFetchCatch "MongooseError" "x buffering timed out y").message ≠
      "Failed to fetch blogs"
    ∧ serverErrorMiddleware "MongooseError" "x buffering timed out y" =
      ⟨504, "Database query timed out. Try using pagination or narrowing your search criteria."⟩ :=
  store_timeout_branch "MongooseError" "x buffering timed out y" rfl (by decide)

/-! ## C8: referenced categories cannot be deleted -/

/-- After erasing the first category with a given id from a list of
categories with pairwise distinct ids, no category with that id remains. -/
theorem find?_eraseP_eq_none {cats : List CategoryDoc} {cid : Nat}
    (hnd : (cats.map CategoryDoc.id).Nodup) :
    (cats.eraseP (fun c => c.id == cid)).find? (fun c => c.id == cid) = none := by
  induction cats with
  | nil => rfl
  | cons a tl ih =>
    obtain ⟨hni, htl⟩ := List.nodup_cons.mp hnd
    by_cases ha : (a.id == cid) = true
    · rw [List.eraseP_cons, ha, cond_true]
      apply List.find?_eq_none.mpr
      intro x hx hxid
      apply hni
      have hxc : x.id = cid := by simpa using hxid
      have hac : a.id = cid := by simpa using ha
      rw [← hac] at hxc
      exact hxc ▸ List.mem_map_of_mem CategoryDoc.id hx
    · have ha' : (a.id == cid) = false := by simpa using ha
      simp only [List.eraseP_cons, ha', cond_false]
      simp [List.find?_cons, ha', ih htl]

/-- C8: deleting a category referenced by at least one blog answers 400
with the reference count and leaves the category collection unchanged;
deleting an existing unreferenced category succeeds, removes it, and — when
category ids are pairwise distinct — leaves no category with that id. -/
theorem category_delete_guard (blogs : List BlogDoc) (cats : List CategoryDoc)
    (cid : Nat) :
    (0 < (blogs.filter (fun b => b.categoryId == cid)).length →
      deleteCategory blogs cats cid =
        ⟨400, false, some (blogs.filter (fun b => b.categoryId == cid)).length, cats⟩)
    ∧ ((blogs.filter (fun b => b.categoryId == cid)).length = 0 →
      ∀ c, cats.find? (fun c => c.id == cid) = some c →
        (deleteCategory blogs cats cid).status = 200
        ∧ (deleteCategory blogs cats cid).success = true
        ∧ (deleteCategory blogs cats cid).categories = cats.eraseP (fun c => c.id == cid)
        ∧ (deleteCategory blogs cats cid).categories.length + 1 = cats.length
        ∧ ((cats.map CategoryDoc.id).Nodup →
          (deleteCategory blogs cats cid).categories.find? (fun c => c.id == cid) = none)) := by
  constructor
  · intro h
    unfold deleteCategory
    rw [if_pos h]
  · intro h0 c hfind
    have hresult : deleteCategory blogs cats cid =
        ⟨200, true, none, cats.eraseP (fun c => c.id == cid)⟩ := by
      unfold deleteCategory
      rw [if_neg (by omega), hfind]
    have hmem : c ∈ cats := List.mem_of_find?_eq_some hfind
    have hpc := List.find?_some hfind
    have hlen : (cats.eraseP (fun c => c.id == cid)).length = cats.length - 1 :=
      List.length_eraseP_of_mem hmem hpc
    have hpos : 0 < cats.length := List.length_pos.mpr (List.ne_nil_of_mem hmem)
    refine ⟨by rw [hresult], by rw [hresult], by rw [hresult], ?_, ?_⟩
    · rw [hresult]
      simp only
      omega
    · intro hnd
      rw [hresult]
      exact find?_eraseP_eq_none hnd

/-- Witness for C8: one blog references category 1; category 9 is
unreferenced. -/
theorem category_delete_guard_witness :
    deleteCategory [pastBlog] [sampleCategory, unusedCategory] 1 =
      ⟨400, false, some 1, [sampleCategory, unusedCategory]⟩
    ∧ (deleteCategory [pastBlog] [sampleCategory, unusedCategory] 9).status = 200
    ∧ (deleteCategory [pastBlog] [sampleCategory, unusedCategory] 9).success = true
    ∧ (deleteCategory [pastBlog] [sampleCategory, unusedCategory] 9).categories.find?
        (fun c => c.id == 9) = none := by
  refine ⟨?_, ?_, ?_, ?_⟩
  · exact ((category_delete_guard [pastBlog] [sampleCategory, unusedCategory] 1).1
      (by decide)).trans (by decide)
  · exact ((category_delete_guard [pastBlog] [sampleCategory, unusedCategory] 9).2
      (by decide) unusedCategory (by decide)).1
  · exact ((category_delete_guard [pastBlog] [sampleCategory, unusedCategory] 9).2
      (by decide) unusedCategory (by decide)).2.1
  · exact ((category_delete_guard [pastBlog] [sampleCategory, unusedCategory] 9).2
      (by decide) unusedCategory (by decide)).2.2.2.2 (by decide)

/-! ## C9: first signup becomes admin -/

/-- C9: the first-ever signup in an empty user store returns a user with
role "admin"; any later signup (at least one user already stored, fresh
email) returns a user with the model's default role "user". -/
theorem first_signup_admin (users : List UserDoc) (name email password : String)
    (hfresh : users.find? (fun u => u.email == email) = none) :
    (users = [] → (signup users name email password).user =
      some ⟨name, email, password, "admin"⟩)
    ∧ (users ≠ [] → (signup users name email password).user =
      some ⟨name, email, password, defaultUserRole⟩) := by
  constructor
  · intro h
    subst h
    simp [signup]
  · intro hne
    have hlen : users.length + 1 ≠ 1 := by
      have h0 : users.length ≠ 0 := fun hc => hne (List.length_eq_zero.mp hc)
      omega
    simp [signup, hfresh, hlen, hne]

/-- Witness for C9: an empty store then a one-user store. -/
theorem first_signup_admin_witness :
    (signup [] "A" "a@x.io" "pw").user = some ⟨"A", "a@x.io", "pw", "admin"⟩
    ∧ (signup [sampleUser] "B" "b@x.io" "pw").user =
      some ⟨"B", "b@x.io", "pw", defaultUserRole⟩ :=
  ⟨(first_signup_admin [] "A" "a@x.io" "pw" (by decide)).1 rfl,
   (first_signup_admin [sampleUser] "B" "b@x.io" "pw" (by decide)).2 (by decide)⟩

/-! ## C5: slug generation and timestamp-suffix collision resolution -/

/-- The digit character of a value below ten is a decimal digit. -/
theorem digitChar_isDigit {n : Nat} (h : n < 10) : (Nat.digitChar n).isDigit = true := by
  interval_cases n <;> decide

/-- Every character produced by `decDigits` is a decimal digit. -/
theorem decDigits_all_digit (fuel : Nat) :
    ∀ n, ∀ c ∈ decDigits fuel n, c.isDigit = true := by
  induction fuel with
  | zero => intro n c hc; cases hc
  | succ f ih =>
    intro n c hc
    by_cases hn : n < 10
    · rw [show decDigits (f + 1) n = [Nat.digitChar n] from by
        simp [decDigits, hn]] at hc
      rcases List.mem_singleton.mp hc with h
      exact h ▸ digitChar_isDigit hn
    · rw [show decDigits (f + 1) n =
          decDigits f (n / 10) ++ [Nat.digitChar (n % 10)] from by
        simp [decDigits, hn]] at hc
      rcases List.mem_append.mp hc with h | h
      · exact ih (n / 10) c h
      · rcases List.mem_singleton.mp h with h
        exact h ▸ digitChar_isDigit (Nat.mod_lt n (by norm_num))

/-- With enough fuel, a number of at least `k + 1` decimal digits produces
at least `k + 1` digit characters. -/
theorem decDigits_length_ge (fuel : Nat) :
    ∀ n k, 10 ^ k ≤ n → n < 10 ^ fuel → k + 1 ≤ (decDigits fuel n).length := by
  induction fuel with
  | zero =>
    intro n k h1 h2
    have hk : 1 ≤ (10 : Nat) ^ k := Nat.one_le_pow k 10 (by norm_num)
    simp at h2
    omega
  | succ f ih =>
    intro n k h1 h2
    by_cases hn : n < 10
    · rw [show decDigits (f + 1) n = [Nat.digitChar n] from by
        simp [decDigits, hn], List.length_singleton]
      by_contra hk
      have hk1 : 1 ≤ k := by omega
      have hpow : (10 : Nat) ^ 1 ≤ 10 ^ k := Nat.pow_le_pow_right (by norm_num) hk1
      simp at hpow
      omega
    · rw [show decDigits (f + 1) n =
          decDigits f (n / 10) ++ [Nat.digitChar (n % 10)] from by
        simp [decDigits, hn], List.length_append, List.length_singleton]
      cases k with
      | zero => omega
      | succ j =>
        have hd1 : 10 ^ j ≤ n / 10 :=
          (Nat.le_div_iff_mul_le (by norm_num)).mpr (by rw [← pow_succ]; exact h1)
        have hd2 : n / 10 < 10 ^ f :=
          (Nat.div_lt_iff_lt_mul (by norm_num)).mpr (by rw [← pow_succ]; exact h2)
        have := ih (n / 10) j hd1 hd2
        omega

/-- For an epoch-seconds value of at least `10^5`, the timestamp suffix is
exactly six characters long and consists of decimal digits. -/
theorem epochSuffix_spec (n : Nat) (h : 100000 ≤ n) :
    (epochSuffix n).length = 6 ∧ (epochSuffix n).data.all Char.isDigit = true := by
  have hub : n < 10 ^ (n + 1) :=
    lt_of_lt_of_le (Nat.lt_pow_self (by norm_num) n)
      (Nat.pow_le_pow_right (by norm_num) (Nat.le_succ n))
  have hlen6 : 6 ≤ (decDigits (n + 1) n).length := by
    have := decDigits_length_ge (n + 1) n 5 (by norm_num; omega) hub
    omega
  constructor
  · show (lastSix (decDigits (n + 1) n)).length = 6
    unfold lastSix
    rw [List.length_drop]
    omega
  · show (lastSix (decDigits (n + 1) n)).all Char.isDigit = true
    rw [List.all_eq_true]
    intro c hc
    exact decDigits_all_digit (n + 1) n c ((List.drop_sublist _ _).mem hc)

/-- C5: creating a blog without an explicit slug persists `slugify(title)`
when that slug is unused, and otherwise `slugify(title)` plus a hyphen and
a six-digit suffix equal to the last six digits of the current
epoch-seconds timestamp; concretely, `slugify "Hello, World!"` is
`"hello-world"`. -/
theorem create_slug_resolution (store : List BlogDoc) (title : String) (nowSec : Nat)
    (hnow : 100000 ≤ nowSec) :
    (store.any (fun b => b.slug == slugify title) = false →
      preSaveSlug store nowSec title none = slugify title)
    ∧ (store.any (fun b => b.slug == slugify title) = true →
      preSaveSlug store nowSec title none = slugify title ++ "-" ++ epochSuffix nowSec
      ∧ (epochSuffix nowSec).length = 6
      ∧ (epochSuffix nowSec).data.all Char.isDigit = true)
    ∧ slugify "Hello, World!" = "hello-world" := by
  refine ⟨?_, ?_, by decide⟩
  · intro h
    simp [preSaveSlug, h]
  · intro h
    exact ⟨by simp [preSaveSlug, h], (epochSuffix_spec nowSec hnow).1,
      (epochSuffix_spec nowSec hnow).2⟩

/-- Witness for C5: the first "Hello, World!" blog gets slug
"hello-world"; with that slug taken, the next one gets the six-digit
epoch suffix. -/
theorem create_slug_resolution_witness :
    preSaveSlug [] 1760227200 "Hello, World!" none = "hello-world"
    ∧ preSaveSlug [helloBlog] 1760227200 "Hello, World!" none = "hello-world-227200"
    ∧ (epochSuffix 1760227200).length = 6 :=
  ⟨((create_slug_resolution [] "Hello, World!" 1760227200 (by norm_num)).1
      (by decide)).trans (by decide),
   (((create_slug_resolution [helloBlog] "Hello, World!" 1760227200 (by norm_num)).2.1
      (by decide)).1).trans (by decide),
   ((create_slug_resolution [helloBlog] "Hello, World!" 1760227200 (by norm_num)).2.1
      (by decide)).2.1⟩

/-! ## C6: tag normalization -/

/-- If trimming empties a list, every element was whitespace. -/
theorem trimList_nil_all_ws {l : List Char} (h : trimList l = []) :
    ∀ c ∈ l, isWsJs c = true := by
  intro c hc
  by_contra hcw
  have hcw' : isWsJs c = false := by revert hcw; cases isWsJs c <;> simp
  have h1 : c ∈ l.dropWhile isWsJs := mem_dropWhile_of_not hcw' hc
  have h2 : c ∈ (l.dropWhile isWsJs).reverse := List.mem_reverse.mpr h1
  have h3 : c ∈ (l.dropWhile isWsJs).reverse.dropWhile isWsJs :=
    mem_dropWhile_of_not hcw' h2
  have hz : (l.dropWhile isWsJs).reverse.dropWhile isWsJs = [] :=
    List.reverse_eq_nil_iff.mp h
  rw [hz] at h3
  cases h3

/-- Splitting a list that contains no separator yields a single field. -/
theorem splitOnChar_no_sep {sep : Char} {l : List Char}
    (h : ∀ c ∈ l, (c == sep) = false) : splitOnChar sep l = [l] := by
  induction l with
  | nil => rfl
  | cons a tl ih =>
    have ha := h a (List.mem_cons_self a tl)
    rw [show splitOnChar sep (a :: tl) =
        (if a == sep then [] :: splitOnChar sep tl
         else match splitOnChar sep tl with
           | [] => [[a]]
           | g :: gs => (a :: g) :: gs) from rfl]
    rw [if_neg (by simp [ha])]
    rw [ih (fun c hc => h c (List.mem_cons_of_mem a hc))]

/-- A string whose trim is empty normalizes to the empty tag list. -/
theorem normalize_empty_of_trim_empty {s : String} (h : jsTrim s = "") :
    normalizeTagString s = [] := by
  have hl : trimList s.data = [] := congrArg String.data h
  have hws := trimList_nil_all_ws hl
  have hnosep : ∀ c ∈ s.data, (c == ',') = false := by
    intro c hc
    have hw := hws c hc
    have h' : ((c = ' ' ∨ c = '\t') ∨ c = '\x0d') ∨ c = '\n' := by
      simpa [isWsJs, Char.isWhitespace] using hw
    rcases h' with ((h' | h') | h') | h' <;> subst h' <;> decide
  unfold normalizeTagString jsSplitComma
  rw [splitOnChar_no_sep hnosep]
  simp [h]

/-- C6: a comma-joined tags string is split on commas with each element
trimmed and empty elements dropped; an array input drops empty and
whitespace-only elements; an empty result — including the inputs `""` and
`[]` — is rejected with 400 on both create and update; and
`"a, b ,, c"` normalizes to `["a","b","c"]`. -/
theorem tags_normalization :
    (normalizeTagString "a, b ,, c" = ["a", "b", "c"]
      ∧ formatTagsCreate (.str "a, b ,, c") = .ok ["a", "b", "c"]
      ∧ formatTagsCreate (.str "") = .reject 400 "At least one tag is required"
      ∧ formatTagsCreate (.arr []) = .reject 400 "At least one tag is required"
      ∧ formatTagsUpdate (.str "") = .reject 400 "At least one non-empty tag is required"
      ∧ formatTagsUpdate (.arr []) = .reject 400 "At least one non-empty tag is required")
    ∧ (∀ s, normalizeTagString s ≠ [] →
        formatTagsCreate (.str s) = .ok (normalizeTagString s)
        ∧ formatTagsUpdate (.str s) = .ok (normalizeTagString s))
    ∧ (∀ s, normalizeTagString s = [] →
        (∃ m, formatTagsCreate (.str s) = .reject 400 m)
        ∧ formatTagsUpdate (.str s) = .reject 400 "At least one non-empty tag is required")
    ∧ (∀ ts, filterArrayTags ts ≠ [] →
        formatTagsCreate (.arr ts) = .ok (filterArrayTags ts)
        ∧ formatTagsUpdate (.arr ts) = .ok (filterArrayTags ts))
    ∧ (∀ ts, filterArrayTags ts = [] →
        (∃ m, formatTagsCreate (.arr ts) = .reject 400 m)
        ∧ formatTagsUpdate (.arr ts) = .reject 400 "At least one non-empty tag is required") := by
  refine ⟨by decide, ?_, ?_, ?_, ?_⟩
  · intro s hne
    have htr : (jsTrim s == "") = false := by
      cases hx : jsTrim s == "" with
      | false => rfl
      | true =>
        have : jsTrim s = "" := by simpa using hx
        exact absurd (normalize_empty_of_trim_empty this) hne
    have hie : (normalizeTagString s).isEmpty = false := by
      cases hx : (normalizeTagString s).isEmpty with
      | false => rfl
      | true => exact absurd (List.isEmpty_iff.mp hx) hne
    exact ⟨by simp [formatTagsCreate, htr, hie], by simp [formatTagsUpdate, hie]⟩
  · intro s h0
    have hie : (normalizeTagString s).isEmpty = true := List.isEmpty_iff.mpr h0
    constructor
    · cases hx : jsTrim s == "" with
      | true => exact ⟨"At least one tag is required", by simp [formatTagsCreate, hx]⟩
      | false =>
        exact ⟨"At least one non-empty tag is required", by simp [formatTagsCreate, hx, hie]⟩
    · simp [formatTagsUpdate, hie]
  · intro ts hne
    have hie : (filterArrayTags ts).isEmpty = false := by
      cases hx : (filterArrayTags ts).isEmpty with
      | false => rfl
      | true => exact absurd (List.isEmpty_iff.mp hx) hne
    have hlen : (ts.length == 0) = false := by
      cases hx : ts.length == 0 with
      | false => rfl
      | true =>
        have h0 : ts.length = 0 := by simpa using hx
        have : ts = [] := List.length_eq_zero.mp h0
        subst this
        exact absurd rfl hne
    exact ⟨by simp [formatTagsCreate, hlen, hie], by simp [formatTagsUpdate, hie]⟩
  · intro ts h0
    have hie : (filterArrayTags ts).isEmpty = true := List.isEmpty_iff.mpr h0
    constructor
    · cases hx : ts.length == 0 with
      | true => exact ⟨"At least one tag is required", by simp [formatTagsCreate, hx]⟩
      | false =>
        exact ⟨"At least one non-empty tag is required", by simp [formatTagsCreate, hx, hie]⟩
    · simp [formatTagsUpdate, hie]

/-- Witness for C6 on fresh concrete inputs. -/
theorem tags_normalization_witness :
    formatTagsCreate (.str " x ,, y ") = .ok ["x", "y"]
    ∧ formatTagsUpdate (.arr ["", "  "]) =
      .reject 400 "At least one non-empty tag is required" :=
  ⟨((tags_normalization).2.1 " x ,, y " (by decide)).1.trans (by decide),
   ((tags_normalization).2.2.2.2 ["", "  "] (by decide)).2⟩

/-! ## C3: pagination of the listing endpoints -/

/-- The handler's `Math.ceil(totalCount / limit)` equals ceiling division
for a positive limit. -/
theorem jsCeilDiv_eq_ceilDiv (total : Nat) (L : Int) (hL : 1 ≤ L) :
    jsCeilDiv total L = ((total ⌈/⌉ L.toNat : Nat) : Int) := by
  have hLL : L = (L.toNat : Int) := (Int.toNat_of_nonneg (by omega)).symm
  rw [Nat.ceilDiv_eq_add_pred_div, Int.ofNat_ediv,
    Nat.cast_sub (by omega), Nat.cast_add]
  unfold jsCeilDiv
  rw [hLL]
  norm_num

/-- C3 counterexample: a supplied page of `"-2"` is not defaulted to 1 —
`parseInt(page) || 1` keeps every nonzero number, so the effective page is
`-2` and the computed skip for limit 10 is `-30`, contradicting
"defaults to 1 if the page parameter is absent or non-positive". -/
theorem listing_pagination_counterexample :
    jsOrOne (jsParseInt "-2") = -2
    ∧ jsOrOne (jsParseInt "-2") ≠ 1
    ∧ (jsOrOne (jsParseInt "-2") - 1) * 10 = -30 := by decide

/-- C3 (amended): with a supplied limit parsing to `L ≥ 1`, the effective
page defaults to 1 when the page parameter is absent, non-numeric or zero
(a negative page value is used as-is instead); for an effective page
`P ≥ 1` the query skips `(P-1)*L` documents and returns at most `L`, the
response carries `currentPage = P` and `totalPages = ceil(totalCount/L)`,
and `totalCount` comes from a separate count over the same filter; with no
limit supplied, `currentPage` and `totalPages` are omitted entirely. -/
theorem listing_pagination (store : List BlogDoc) (filter : BlogDoc → Bool)
    (pageQ : Option String) (ls : String) (L : Int)
    (hls : jsParseInt ls = some L) (hL : 1 ≤ L) :
    ((pageQ.bind jsParseInt = none ∨ pageQ.bind jsParseInt = some 0) →
      jsOrOne (pageQ.bind jsParseInt) = 1)
    ∧ (∀ P, jsOrOne (pageQ.bind jsParseInt) = P → 1 ≤ P →
      (getBlogs store filter pageQ (some ls)).blogs =
        ((sortByCreatedAtDesc (store.filter filter)).drop ((P - 1) * L).toNat).take L.toNat
      ∧ (getBlogs store filter pageQ (some ls)).blogs.length ≤ L.toNat
      ∧ (getBlogs store filter pageQ (some ls)).currentPage = some P
      ∧ (getBlogs store filter pageQ (some ls)).totalPages =
          some (((store.filter filter).length ⌈/⌉ L.toNat : Nat) : Int)
      ∧ (getBlogs store filter pageQ (some ls)).totalCount = (store.filter filter).length)
    ∧ (getBlogs store filter pageQ none).currentPage = none
    ∧ (getBlogs store filter pageQ none).totalPages = none := by
  have hne : (ls == "") = false := by
    cases hx : ls == "" with
    | false => rfl
    | true =>
      have hemp : ls = "" := by simpa using hx
      rw [hemp] at hls
      have : jsParseInt "" = none := by decide
      rw [this] at hls
      cases hls
  have htruthy : queryTruthy (some ls) = true := by simp [queryTruthy, hne]
  refine ⟨?_, ?_, ?_, ?_⟩
  · intro h
    rcases h with h | h <;> simp [jsOrOne, h]
  · intro P hP hP1
    have hresult : getBlogs store filter pageQ (some ls) =
        ⟨true,
          applyWindow (sortByCreatedAtDesc (store.filter filter)) ((P - 1) * L) L,
          (store.filter filter).length, some P,
          some (jsCeilDiv (store.filter filter).length L)⟩ := by
      have hbind : (some ls).bind jsParseInt = some L := hls
      simp only [getBlogs, htruthy, if_true, hbind, hP]
    refine ⟨?_, ?_, ?_, ?_, ?_⟩
    · rw [hresult]; rfl
    · rw [hresult]; exact List.length_take_le _ _
    · rw [hresult]
    · rw [hresult]
      exact congrArg some (jsCeilDiv_eq_ceilDiv (store.filter filter).length L hL)
    · rw [hresult]
  · simp [getBlogs, queryTruthy]
  · simp [getBlogs, queryTruthy]

/-- Witness for the amended C3 on a three-document store, limit 2, page 2. -/
theorem listing_pagination_witness :
    (getBlogs [legacyBlog, pastBlog, futureBlog] (fun _ => true)
      (some "2") (some "2")).currentPage = some 2
    ∧ (getBlogs [legacyBlog, pastBlog, futureBlog] (fun _ => true)
      (some "2") (some "2")).totalPages = some 2
    ∧ (getBlogs [legacyBlog, pastBlog, futureBlog] (fun _ => true)
      (some "2") (some "2")).totalCount = 3
    ∧ (getBlogs [legacyBlog, pastBlog, futureBlog] (fun _ => true)
      (some "2") (some "2")).blogs.length ≤ 2
    ∧ (getBlogs [legacyBlog, pastBlog, futureBlog] (fun _ => true)
      none none).currentPage = none := by
  have h := (listing_pagination [legacyBlog, pastBlog, futureBlog] (fun _ => true)
    (some "2") "2" 2 (by decide) (by decide)).2.1 2 (by decide) (by decide)
  have hrest := (listing_pagination [legacyBlog, pastBlog, futureBlog] (fun _ => true)
    (some "2") "2" 2 (by decide) (by decide)).2.2.1
  exact ⟨h.2.2.1, h.2.2.2.1.trans (by decide), h.2.2.2.2.trans (by decide),
    h.2.1, hrest⟩

/-! ## C10: blog status defaults to published -/

/-- C10: a blog created without a status (or with an empty status string)
is persisted as "published", both through the create handler's
`status || "published"` and through the schema default. -/
theorem blog_status_defaults_published :
    createBlogStatus none = "published"
    ∧ createBlogStatus (some "") = "published"
    ∧ blogSchemaStatusDefault = "published"
    ∧ createBlogStatus none ≠ "draft" := by
  decide

end BlogPlatform
